import Mathlib

/-!
# blue-space: the mining driver (`src/main.cc`)

A shallow embedding of `main` of `src/blue-space/src/main.cc`.  The driver composes three
collaborators whose code lives outside the file: the explorer (`explorer->next()`), the
miner (`miner.mine_batch`) and the storage (`storage->store`).  They are taken as parameters
(`Env`); every call the driver makes on them, and every line it prints, is recorded as an
`Event`, so that a run of `main` is a trace of events together with the way the process ends.

Conventions of the embedding:
* `std::vector` is `Array`, `push_back` is `Array.push`; `int64`/`uint64` values are `Int`/`Nat`
  (the driver does no arithmetic on them);
* `explorer->next()` returns a `std::optional`; `.value()` on an empty optional throws
  `std::bad_optional_access`, which `main` does not catch (`Outcome.terminated`);
* `mine_batch` and `store` are assumed to return normally; `mine_batch` is given by the batch
  it leaves behind, which covers a miner that changes, reorders or resizes the vector;
* constructing the storage, the explorer and the miner produces no event; the two clock
  readings enter only through the elapsed milliseconds of the rate line.
-/

set_option autoImplicit false

namespace BlueSpace

/-! ## Data model -/

/-- Lattice cell `miner::common::Coordinate`, built in `main` as `origin(0, 0)` and read
through its members `x` and `y`. -/
structure Coordinate where
  x : Int
  y : Int
deriving DecidableEq, Repr

/-- Record `miner::common::WorkItem` with the four members `main` initialises on line 31:
`.x`, `.y`, `.is_planet`, `.hash`. -/
structure WorkItem where
  x : Int
  y : Int
  is_planet : Bool
  hash : String
deriving DecidableEq, Repr

/-- Coordinate carried by a work item. -/
def WorkItem.coordinate (w : WorkItem) : Coordinate := ⟨w.x, w.y⟩

/-- Modelled from the spec: the record `ExplorerCursor` of section 3,
`{origin, ring_index, step_index_within_ring}`; its declaration is not in `main.cc`. -/
structure ExplorerCursor where
  origin : Coordinate
  ring_index : Nat
  step_index_within_ring : Nat
deriving DecidableEq, Repr

/-- Line 15: `const uint64_t RARITY = 16384;` -/
def RARITY : Nat := 16384

/-- Line 16: `const uint64_t KEY = 420;` -/
def KEY : Nat := 420

/-- Line 24: `std::size_t batch_size = 256 * 256 * 4;` -/
def batch_size : Nat := 256 * 256 * 4

/-- Build configuration of lines 34-38: `cuda` when `HAS_CUDA_MINER` is defined
(`miner::cuda::CudaMiner miner(0)`), `cpu` otherwise (`miner::cpu::CpuMiner miner`). -/
inductive Backend where
  | cuda
  | cpu
deriving DecidableEq, Repr

/-- What the driver does that is visible outside it: calls on its collaborators and lines
written to `std::cout`.  `save_cursor` is the storage operation of the spec's interface. -/
inductive Event where
  /-- Call of `explorer->next()` together with the optional it returned. -/
  | next (result : Option Coordinate)
  /-- Call `miner.mine_batch(batch, rarity, key)` with the batch as it is handed over. -/
  | mine_batch (batch : Array WorkItem) (rarity : Nat) (key : Nat)
  /-- Call `storage->store(item)`. -/
  | store (item : WorkItem)
  /-- Call `storage->save_cursor(cursor)`. -/
  | save_cursor (cursor : ExplorerCursor)
  /-- Line 50, `Mine <batch_size> hashes in <duration> ms (<rate> H/s)`; the floating point
  rate is a function of the two recorded numbers and is not rendered. -/
  | cout_rate (size : Nat) (duration : Int)
  /-- Line 56, one line `H(x, y) = hash`. -/
  | cout_planet (line : String)
deriving DecidableEq, Repr

/-- How the process ends. -/
inductive Outcome where
  /-- Function `main` returns the status. -/
  | returned (status : Int)
  /-- `std::optional::value()` throws `std::bad_optional_access`, nothing in `main` catches
  it, and the process is ended by `std::terminate` (abort). -/
  | terminated
deriving DecidableEq, Repr

/-- Result of one execution of the driver. -/
structure Run where
  trace : List Event
  outcome : Outcome
deriving DecidableEq, Repr

/-- Collaborators of the driver, whose code is outside `main.cc`.  `σ` is the state of the
explorer (which includes whatever it keeps in the storage file). -/
structure Env (σ : Type) where
  /-- Lines 21-22: `SpiralExplorer(storage, origin)` over `FileStorage("/tmp/explorer.db")`. -/
  explorer : Coordinate → σ
  /-- Method `explorer->next()`: the optional coordinate and the explorer afterwards. -/
  next : σ → Option Coordinate × σ
  /-- Method `miner::cuda::CudaMiner::mine_batch`: the batch as the call leaves it. -/
  cuda_mine_batch : Array WorkItem → Nat → Nat → Array WorkItem
  /-- Method `miner::cpu::CpuMiner::mine_batch`: the batch as the call leaves it. -/
  cpu_mine_batch : Array WorkItem → Nat → Nat → Array WorkItem
  /-- Milliseconds between the two readings of `std::chrono::steady_clock` (line 48). -/
  duration : Int

/-! ## The driver -/

/-- Lines 34-38 and 41: the `mine_batch` of the miner the build configuration selects. -/
def mine_batch {σ : Type} (backend : Backend) (env : Env σ) :
    Array WorkItem → Nat → Nat → Array WorkItem :=
  match backend with
  | Backend.cuda => env.cuda_mine_batch
  | Backend.cpu => env.cpu_mine_batch

/-- Lines 27-32, with `n` iterations left: call `next()`, take `.value()` (which throws when
the optional is empty, giving `none` here) and `push_back` an empty work item. -/
def fill_batch {σ : Type} (next : σ → Option Coordinate × σ) :
    Nat → σ → Array WorkItem → Array Event → Array Event × Option (Array WorkItem)
  | 0, _, batch, tr => (tr, some batch)
  | n + 1, e, batch, tr =>
    match next e with
    | (none, _) => (tr.push (Event.next none), none)
    | (some c, e') =>
      fill_batch next n e' (batch.push (WorkItem.mk c.x c.y false ""))
        (tr.push (Event.next (some c)))

/-- Lines 42-45: `for (auto &item : batch) storage->store(item);` -/
def store_all (batch : Array WorkItem) (tr : Array Event) : Array Event :=
  batch.foldl (fun t item => t.push (Event.store item)) tr

/-- Line 56: the text `H(x, y) = hash` of one item. -/
def planet_line (p : WorkItem) : String :=
  "H(" ++ toString p.x ++ ", " ++ toString p.y ++ ") = " ++ p.hash

/-- Lines 52-58: for each index `i < batch.size()`, print the line of `batch[i]` when its
`is_planet` is set. -/
def report_planets (batch : Array WorkItem) (tr : Array Event) : Array Event :=
  (List.range batch.size).foldl
    (fun t i =>
      match batch[i]? with
      | some p => if p.is_planet then t.push (Event.cout_planet (planet_line p)) else t
      | none => t)
    tr

/-- Function `main` of `main.cc` (lines 18-60). -/
def main {σ : Type} (backend : Backend) (env : Env σ) : Run :=
  let origin : Coordinate := ⟨0, 0⟩
  let explorer := env.explorer origin
  match fill_batch env.next batch_size explorer #[] #[] with
  | (tr, none) => ⟨tr.toList, Outcome.terminated⟩
  | (tr, some batch) =>
    let tr := tr.push (Event.mine_batch batch RARITY KEY)
    let batch := mine_batch backend env batch RARITY KEY
    let tr := store_all batch tr
    let tr := tr.push (Event.cout_rate batch_size env.duration)
    let tr := report_planets batch tr
    ⟨tr.toList, Outcome.returned 0⟩

/-! ## The spiral explorer of the spec -/

/-- Modelled from the spec: the ordering of section 4.1 (the code of `SpiralExplorer` is not
in `main.cc`).  Ring 0 is the single origin cell; ring `k ≥ 1` has `8k` cells, starting at
`(origin.x + k, origin.y - k + 1)`: up the right edge, left across the top edge, down the
left edge, right across the bottom edge.  `s` is the step index within the ring. -/
def ring_cell (origin : Coordinate) (k s : Nat) : Coordinate :=
  if k = 0 then origin
  else if s < 2 * k then ⟨origin.x + k, origin.y - k + 1 + s⟩
  else if s < 4 * k then ⟨origin.x + k - 1 - (s - 2 * k : Nat), origin.y + k⟩
  else if s < 6 * k then ⟨origin.x - k, origin.y + k - 1 - (s - 4 * k : Nat)⟩
  else ⟨origin.x - k + 1 + (s - 6 * k : Nat), origin.y - k⟩

/-- Modelled from the spec: the cursor after one emission (section 4.1: ring 0, then rings
1, 2, 3, ... in increasing order, each traversed through its `8k` steps). -/
def ExplorerCursor.advance (c : ExplorerCursor) : ExplorerCursor :=
  if c.ring_index = 0 then { c with ring_index := 1, step_index_within_ring := 0 }
  else if c.step_index_within_ring + 1 < 8 * c.ring_index then
    { c with step_index_within_ring := c.step_index_within_ring + 1 }
  else { c with ring_index := c.ring_index + 1, step_index_within_ring := 0 }

/-- Modelled from the spec: the part of `FileStorage` the explorer uses (section 4.2), the
single cursor record and whether the medium accepts a write. -/
structure FileStorage where
  cursor : Option ExplorerCursor
  available : Bool
deriving DecidableEq, Repr

/-- Modelled from the spec: `save_cursor` of section 4.2; it fails (`none`) when the medium is
unavailable and then leaves the prior record intact. -/
def FileStorage.save_cursor (st : FileStorage) (c : ExplorerCursor) : Option FileStorage :=
  if st.available then some { st with cursor := some c } else none

/-- Modelled from the spec: state of a `SpiralExplorer`, its cursor and its storage. -/
structure SpiralExplorer where
  cursor : ExplorerCursor
  storage : FileStorage
deriving DecidableEq, Repr

/-- Modelled from the spec: construction of a `SpiralExplorer` (section 4.1, Restart): it
resumes from the persisted cursor if there is one and starts at ring 0 otherwise. -/
def SpiralExplorer.create (storage : FileStorage) (origin : Coordinate) : SpiralExplorer :=
  match storage.cursor with
  | some c => ⟨c, storage⟩
  | none => ⟨⟨origin, 0, 0⟩, storage⟩

/-- Modelled from the spec: `SpiralExplorer.next()` of section 4.1: the coordinate at the
cursor, the cursor advanced and persisted before returning; when persisting fails nothing
is emitted and the explorer does not advance. -/
def SpiralExplorer.next (e : SpiralExplorer) : Option Coordinate × SpiralExplorer :=
  match e.storage.save_cursor e.cursor.advance with
  | none => (none, e)
  | some st =>
    (some (ring_cell e.cursor.origin e.cursor.ring_index e.cursor.step_index_within_ring),
      ⟨e.cursor.advance, st⟩)

/-- Storage file with no cursor record, on a medium that accepts writes. -/
def fresh_storage : FileStorage := ⟨none, true⟩

/-- Driver environment whose explorer is the spiral explorer of the spec over `storage`. -/
def spiralEnv (storage : FileStorage) (cuda cpu : Array WorkItem → Nat → Nat → Array WorkItem)
    (duration : Int) : Env SpiralExplorer :=
  ⟨SpiralExplorer.create storage, SpiralExplorer.next, cuda, cpu, duration⟩

/-! ## Sample collaborators -/

/-- Sample miner: keeps order, length and coordinates, sets a digest text and flags the
items whose `x + key` is a multiple of `rarity`. -/
def sample_mine_batch (batch : Array WorkItem) (rarity key : Nat) : Array WorkItem :=
  batch.map fun w => { w with is_planet := (w.x.toNat + key) % rarity == 0, hash := "digest" }

/-- Sample explorer that walks along the x axis and never fails: the state is the number
of coordinates emitted so far. -/
def lineEnv : Env Nat :=
  ⟨fun _ => 0, fun n => (some ⟨n, 0⟩, n + 1), sample_mine_batch, sample_mine_batch, 7⟩

/-- Sample explorer that walks along the x axis and yields no value from call `k` on
(calls are counted from 0). -/
def stallEnv (k : Nat) : Env Nat :=
  ⟨fun _ => 0, fun n => if n < k then (some ⟨n, 0⟩, n + 1) else (none, n),
    sample_mine_batch, sample_mine_batch, 7⟩

/-! ## Observations on a trace -/

/-- Results of the calls of `explorer->next()`, in call order. -/
def nextResults (tr : List Event) : List (Option Coordinate) :=
  tr.filterMap fun e => match e with
    | Event.next r => some r
    | _ => none

/-- Coordinates the explorer emitted, in order. -/
def emitted (tr : List Event) : List Coordinate :=
  (nextResults tr).filterMap id

/-- Arguments of the calls of `mine_batch`, in call order. -/
def mineCalls (tr : List Event) : List (Array WorkItem × Nat × Nat) :=
  tr.filterMap fun e => match e with
    | Event.mine_batch b r k => some (b, r, k)
    | _ => none

/-- Items passed to `storage->store`, in call order. -/
def stored (tr : List Event) : List WorkItem :=
  tr.filterMap fun e => match e with
    | Event.store w => some w
    | _ => none

/-- Cursors passed to `storage->save_cursor`, in call order. -/
def cursorSaves (tr : List Event) : List ExplorerCursor :=
  tr.filterMap fun e => match e with
    | Event.save_cursor c => some c
    | _ => none

/-- Lines `H(x, y) = hash` written to `std::cout`, in order. -/
def planetLines (tr : List Event) : List String :=
  tr.filterMap fun e => match e with
    | Event.cout_planet l => some l
    | _ => none

/-- Everything written to `std::cout`, in order. -/
def printed (tr : List Event) : List Event :=
  tr.filter fun e => match e with
    | Event.cout_rate _ _ => true
    | Event.cout_planet _ => true
    | _ => false

/-- Empty work item the driver creates for a coordinate (line 31). -/
def empty_item (c : Coordinate) : WorkItem := WorkItem.mk c.x c.y false ""

/-- Results of at most `n` successive calls of `next()`, ending at the first empty one. -/
def draws {σ : Type} (next : σ → Option Coordinate × σ) : Nat → σ → List (Option Coordinate)
  | 0, _ => []
  | n + 1, e =>
    match next e with
    | (none, _) => [none]
    | (some c, e') => some c :: draws next n e'

/-- Results of the calls of `next()` the driver makes on the explorer of `env`. -/
def driver_draws {σ : Type} (env : Env σ) : List (Option Coordinate) :=
  draws env.next batch_size (env.explorer ⟨0, 0⟩)

/-- Coordinates the driver obtains from the explorer of `env`. -/
def pulled {σ : Type} (env : Env σ) : List Coordinate :=
  (driver_draws env).filterMap id

/-- Events of lines 42-58 for a mined batch: the `store` calls, the rate line and the
planet lines. -/
def after_mining (duration : Int) (mined : Array WorkItem) : List Event :=
  mined.toList.map Event.store ++
    Event.cout_rate batch_size duration ::
      (mined.toList.filter fun p => p.is_planet).map fun p => Event.cout_planet (planet_line p)

/-! ## The loops of the driver as list functions -/

theorem fill_batch_eq {σ : Type} (next : σ → Option Coordinate × σ) :
    ∀ (n : Nat) (e : σ) (batch : Array WorkItem) (tr : Array Event),
      fill_batch next n e batch tr =
        ((tr.toList ++ (draws next n e).map Event.next).toArray,
          if none ∈ draws next n e then none
          else some (batch.toList ++ ((draws next n e).filterMap id).map empty_item).toArray) := by
  intro n
  induction n with
  | zero => intro e batch tr; simp [fill_batch, draws]
  | succ n ih =>
    intro e batch tr
    rcases hn : next e with ⟨r, e'⟩
    cases r with
    | none => simp [fill_batch, draws, hn]; apply Array.ext'; simp
    | some c => simp [fill_batch, draws, hn, ih, empty_item]

theorem store_all_eq (batch : Array WorkItem) (tr : Array Event) :
    store_all batch tr = (tr.toList ++ batch.toList.map Event.store).toArray := by
  unfold store_all
  rw [Array.foldl_eq_foldl_toList]
  generalize batch.toList = l
  induction l generalizing tr with
  | nil => simp
  | cons w l ih => simp [ih]

theorem report_planets_take (batch : Array WorkItem) (tr : Array Event) :
    ∀ n : Nat, n ≤ batch.size →
      (List.range n).foldl
          (fun t i =>
            match batch[i]? with
            | some p => if p.is_planet then t.push (Event.cout_planet (planet_line p)) else t
            | none => t)
          tr =
        (tr.toList ++ ((batch.toList.take n).filter fun p => p.is_planet).map
          fun p => Event.cout_planet (planet_line p)).toArray := by
  intro n
  induction n with
  | zero => intro _; simp
  | succ n ih =>
    intro hn
    have hlt : n < batch.toList.length := by simpa using hn
    rw [List.range_succ, List.foldl_append, ih (Nat.le_of_succ_le hn), List.take_succ]
    have hget : batch[n]? = some batch.toList[n] := by
      rw [Array.getElem?_eq_getElem?_toList]; exact List.getElem?_eq_getElem hlt
    rw [List.getElem?_eq_getElem hlt]
    simp only [List.foldl_cons, List.foldl_nil, hget]
    generalize batch.toList[n] = w
    apply Array.ext'
    by_cases hp : w.is_planet = true <;> simp [hp, List.filter_append]

theorem report_planets_eq (batch : Array WorkItem) (tr : Array Event) :
    report_planets batch tr =
      (tr.toList ++ (batch.toList.filter fun p => p.is_planet).map
        fun p => Event.cout_planet (planet_line p)).toArray := by
  unfold report_planets
  rw [report_planets_take batch tr batch.size (Nat.le_refl _), Array.size_eq_length_toList,
    List.take_length]

theorem draws_cases {σ : Type} (next : σ → Option Coordinate × σ) :
    ∀ (n : Nat) (e : σ), ∃ cs : List Coordinate,
      (draws next n e = cs.map some ∧ cs.length = n) ∨
        (draws next n e = cs.map some ++ [none] ∧ cs.length < n) := by
  intro n
  induction n with
  | zero => intro e; exact ⟨[], Or.inl ⟨rfl, rfl⟩⟩
  | succ n ih =>
    intro e
    rcases hn : next e with ⟨r, e'⟩
    cases r with
    | none => exact ⟨[], Or.inr ⟨by simp [draws, hn], by simp⟩⟩
    | some c =>
      obtain ⟨cs, h | h⟩ := ih e'
      · exact ⟨c :: cs, Or.inl ⟨by simp [draws, hn, h.1], by simp [h.2]⟩⟩
      · exact ⟨c :: cs, Or.inr ⟨by simp [draws, hn, h.1], by simp [h.2]⟩⟩

theorem filterMap_id_map_some (cs : List Coordinate) : (cs.map some).filterMap id = cs := by
  induction cs with
  | nil => rfl
  | cons c cs ih => simp [ih]

theorem none_not_mem_map_some (cs : List Coordinate) : none ∉ cs.map some := by
  simp

/-- Shape of the draws of a run: the coordinates pulled, followed by one empty result
exactly when fewer than `batch_size` were pulled. -/
theorem driver_draws_shape {σ : Type} (env : Env σ) :
    (driver_draws env = (pulled env).map some ∧ (pulled env).length = batch_size) ∨
      (driver_draws env = (pulled env).map some ++ [none] ∧
        (pulled env).length < batch_size) := by
  obtain ⟨cs, h | h⟩ := draws_cases env.next batch_size (env.explorer ⟨0, 0⟩)
  · left
    have hp : pulled env = cs := by
      unfold pulled driver_draws; rw [h.1]; exact filterMap_id_map_some cs
    rw [hp]; exact ⟨h.1, h.2⟩
  · right
    have hp : pulled env = cs := by
      unfold pulled driver_draws; rw [h.1]; simp [List.filterMap_append, filterMap_id_map_some]
    rw [hp]; exact ⟨h.1, h.2⟩

/-- Run of `main` when some call of `next()` yields no value. -/
theorem main_stalled {σ : Type} (backend : Backend) (env : Env σ)
    (h : none ∈ driver_draws env) :
    (pulled env).length < batch_size ∧
      main backend env =
        ⟨(pulled env).map (fun c => Event.next (some c)) ++ [Event.next none],
          Outcome.terminated⟩ := by
  rcases driver_draws_shape env with hs | hs
  · rw [hs.1] at h; exact absurd h (none_not_mem_map_some _)
  · refine ⟨hs.2, ?_⟩
    have hd : draws env.next batch_size (env.explorer ⟨0, 0⟩) = List.map some (pulled env) ++ [none] :=
      hs.1
    simp [main, fill_batch_eq, hd]

/-- Run of `main` when every call of `next()` yields a value. -/
theorem main_filled {σ : Type} (backend : Backend) (env : Env σ)
    (h : none ∉ driver_draws env) :
    (pulled env).length = batch_size ∧
      main backend env =
        ⟨(pulled env).map (fun c => Event.next (some c)) ++
            Event.mine_batch ((pulled env).map empty_item).toArray RARITY KEY ::
              after_mining env.duration
                (mine_batch backend env ((pulled env).map empty_item).toArray RARITY KEY),
          Outcome.returned 0⟩ := by
  rcases driver_draws_shape env with hs | hs
  · refine ⟨hs.2, ?_⟩
    have hd : draws env.next batch_size (env.explorer ⟨0, 0⟩) = List.map some (pulled env) :=
      hs.1
    simp [main, fill_batch_eq, hd, store_all_eq, report_planets_eq, after_mining,
      filterMap_id_map_some]
  · rw [hs.1] at h; exact absurd (by simp) h

/-! ## Observations on the two shapes of a run -/

theorem nextResults_pulls (cs : List Coordinate) :
    nextResults (cs.map fun c => Event.next (some c)) = cs.map some := by
  induction cs with
  | nil => rfl
  | cons c cs ih => simpa [nextResults] using ih

theorem nextResults_after_mining (d : Int) (m : Array WorkItem) :
    nextResults (after_mining d m) = [] := by
  simp [nextResults, after_mining, List.filterMap_append, List.filterMap_map,
    List.filterMap_eq_nil_iff]

theorem mineCalls_pulls (cs : List Coordinate) :
    mineCalls (cs.map fun c => Event.next (some c)) = [] := by
  simp [mineCalls, List.filterMap_eq_nil_iff]

theorem mineCalls_after_mining (d : Int) (m : Array WorkItem) :
    mineCalls (after_mining d m) = [] := by
  simp [mineCalls, after_mining, List.filterMap_append, List.filterMap_map,
    List.filterMap_eq_nil_iff]

theorem stored_pulls (cs : List Coordinate) :
    stored (cs.map fun c => Event.next (some c)) = [] := by
  simp [stored, List.filterMap_eq_nil_iff]

theorem stored_map_store (l : List WorkItem) : stored (l.map Event.store) = l := by
  induction l with
  | nil => rfl
  | cons w l ih => simpa [stored] using ih

theorem stored_planet_lines (l : List WorkItem) :
    stored (l.map fun p => Event.cout_planet (planet_line p)) = [] := by
  simp [stored, List.filterMap_eq_nil_iff]

theorem stored_append (l₁ l₂ : List Event) : stored (l₁ ++ l₂) = stored l₁ ++ stored l₂ := by
  simp [stored, List.filterMap_append]

theorem stored_after_mining (d : Int) (m : Array WorkItem) :
    stored (after_mining d m) = m.toList := by
  unfold after_mining
  rw [stored_append, stored_map_store]
  have h : stored (Event.cout_rate batch_size d ::
      (m.toList.filter fun p => p.is_planet).map fun p => Event.cout_planet (planet_line p)) = [] := by
    exact stored_planet_lines (m.toList.filter fun p => p.is_planet)
  rw [h, List.append_nil]

theorem cursorSaves_pulls (cs : List Coordinate) :
    cursorSaves (cs.map fun c => Event.next (some c)) = [] := by
  simp [cursorSaves, List.filterMap_eq_nil_iff]

theorem cursorSaves_after_mining (d : Int) (m : Array WorkItem) :
    cursorSaves (after_mining d m) = [] := by
  simp [cursorSaves, after_mining, List.filterMap_append, List.filterMap_map,
    List.filterMap_eq_nil_iff]

theorem planetLines_pulls (cs : List Coordinate) :
    planetLines (cs.map fun c => Event.next (some c)) = [] := by
  simp [planetLines, List.filterMap_eq_nil_iff]

theorem planetLines_map_store (l : List WorkItem) : planetLines (l.map Event.store) = [] := by
  simp [planetLines, List.filterMap_eq_nil_iff]

theorem planetLines_map_line (l : List WorkItem) :
    planetLines (l.map fun p => Event.cout_planet (planet_line p)) = l.map planet_line := by
  induction l with
  | nil => rfl
  | cons w l ih => simpa [planetLines] using ih

theorem planetLines_append (l₁ l₂ : List Event) :
    planetLines (l₁ ++ l₂) = planetLines l₁ ++ planetLines l₂ := by
  simp [planetLines, List.filterMap_append]

theorem planetLines_after_mining (d : Int) (m : Array WorkItem) :
    planetLines (after_mining d m) = (m.toList.filter fun p => p.is_planet).map planet_line := by
  unfold after_mining
  rw [planetLines_append, planetLines_map_store, List.nil_append]
  have h := planetLines_map_line (m.toList.filter fun p => p.is_planet)
  simpa [planetLines] using h

theorem printed_pulls (cs : List Coordinate) :
    printed (cs.map fun c => Event.next (some c)) = [] := by
  simp [printed, List.filter_eq_nil_iff]

/-- The trace of a run holds an empty `next()` result exactly when one was drawn. -/
theorem next_none_mem_trace {σ : Type} (backend : Backend) (env : Env σ) :
    Event.next none ∈ (main backend env).trace ↔ none ∈ driver_draws env := by
  by_cases h : none ∈ driver_draws env
  · simp [h, (main_stalled backend env h).2]
  · simp [h, (main_filled backend env h).2, after_mining]

/-- The only `mine_batch` call of a run is the one on the freshly filled batch. -/
theorem mine_event_mem {σ : Type} (backend : Backend) (env : Env σ)
    (batch : Array WorkItem) (r k : Nat)
    (h : Event.mine_batch batch r k ∈ (main backend env).trace) :
    none ∉ driver_draws env ∧ batch = ((pulled env).map empty_item).toArray ∧
      r = RARITY ∧ k = KEY := by
  by_cases hs : none ∈ driver_draws env
  · rw [(main_stalled backend env hs).2] at h
    simp at h
  · rw [(main_filled backend env hs).2] at h
    simp [after_mining] at h
    exact ⟨hs, h⟩

/-- The batch the driver builds from the coordinates it pulled. -/
theorem empty_items_coordinates (cs : List Coordinate) :
    (cs.map empty_item).map WorkItem.coordinate = cs := by
  induction cs with
  | nil => rfl
  | cons c cs ih => simpa [empty_item, WorkItem.coordinate] using ih

theorem filled_nextResults {σ : Type} (backend : Backend) (env : Env σ)
    (h : none ∉ driver_draws env) :
    nextResults (main backend env).trace = (pulled env).map some := by
  rw [(main_filled backend env h).2]
  show nextResults (_ ++ _ :: _) = _
  unfold nextResults
  rw [List.filterMap_append]
  have h1 := nextResults_pulls (pulled env)
  have h2 := nextResults_after_mining env.duration
    (mine_batch backend env ((pulled env).map empty_item).toArray RARITY KEY)
  unfold nextResults at h1 h2
  rw [h1]
  simp [h2]

theorem filled_emitted {σ : Type} (backend : Backend) (env : Env σ)
    (h : none ∉ driver_draws env) :
    emitted (main backend env).trace = pulled env := by
  unfold emitted
  rw [filled_nextResults backend env h, filterMap_id_map_some]

theorem filled_stored {σ : Type} (backend : Backend) (env : Env σ)
    (h : none ∉ driver_draws env) :
    stored (main backend env).trace =
      (mine_batch backend env ((pulled env).map empty_item).toArray RARITY KEY).toList := by
  rw [(main_filled backend env h).2]
  show stored (_ ++ _ :: _) = _
  rw [stored_append, stored_pulls, List.nil_append]
  exact stored_after_mining _ _

theorem filled_mineCalls {σ : Type} (backend : Backend) (env : Env σ)
    (h : none ∉ driver_draws env) :
    mineCalls (main backend env).trace =
      [(((pulled env).map empty_item).toArray, RARITY, KEY)] := by
  rw [(main_filled backend env h).2]
  show mineCalls (_ ++ _ :: _) = _
  have h1 := mineCalls_pulls (pulled env)
  have h2 := mineCalls_after_mining env.duration
    (mine_batch backend env ((pulled env).map empty_item).toArray RARITY KEY)
  unfold mineCalls at h1 h2 ⊢
  rw [List.filterMap_append, h1]
  simp [h2]

theorem filled_planetLines {σ : Type} (backend : Backend) (env : Env σ)
    (h : none ∉ driver_draws env) :
    planetLines (main backend env).trace =
      ((mine_batch backend env ((pulled env).map empty_item).toArray RARITY KEY).toList.filter
        fun p => p.is_planet).map planet_line := by
  rw [(main_filled backend env h).2]
  show planetLines (_ ++ _ :: _) = _
  rw [planetLines_append, planetLines_pulls, List.nil_append]
  exact planetLines_after_mining _ _

theorem filled_mine_event_mem {σ : Type} (backend : Backend) (env : Env σ)
    (h : none ∉ driver_draws env) :
    Event.mine_batch ((pulled env).map empty_item).toArray RARITY KEY ∈
      (main backend env).trace := by
  rw [(main_filled backend env h).2]
  simp

theorem draws_total {σ : Type} (next : σ → Option Coordinate × σ)
    (htotal : ∀ e, (next e).1 ≠ none) : ∀ (n : Nat) (e : σ), none ∉ draws next n e := by
  intro n
  induction n with
  | zero => intro e; simp [draws]
  | succ n ih =>
    intro e
    rcases hn : next e with ⟨r, e'⟩
    cases r with
    | none => exact absurd (by rw [hn]) (htotal e)
    | some c => simpa [draws, hn] using ih e'

theorem sample_keeps_coordinates (batch : Array WorkItem) (r k : Nat) :
    (sample_mine_batch batch r k).toList.map WorkItem.coordinate =
      batch.toList.map WorkItem.coordinate := by
  simp [sample_mine_batch, WorkItem.coordinate]

theorem sample_length (batch : Array WorkItem) (r k : Nat) :
    (sample_mine_batch batch r k).toList.length = batch.toList.length := by
  simp [sample_mine_batch]

theorem lineEnv_cpu : mine_batch Backend.cpu lineEnv = sample_mine_batch := rfl

theorem lineEnv_filled : none ∉ driver_draws lineEnv :=
  draws_total lineEnv.next (fun e => by simp [lineEnv]) batch_size (lineEnv.explorer ⟨0, 0⟩)

theorem draws_succ {σ : Type} (next : σ → Option Coordinate × σ) (n : Nat) (e : σ) :
    draws next (n + 1) e =
      match next e with
      | (none, _) => [none]
      | (some c, e') => some c :: draws next n e' := rfl

theorem stallEnv_zero_draws : driver_draws (stallEnv 0) = [none] := by
  have hb : batch_size = 262143 + 1 := rfl
  unfold driver_draws
  rw [hb, draws_succ]
  rfl

theorem stallEnv_two_draws :
    driver_draws (stallEnv 2) = [some ⟨0, 0⟩, some ⟨1, 0⟩, none] := by
  have hb : batch_size = 262141 + 1 + 1 + 1 := rfl
  unfold driver_draws
  rw [hb, draws_succ]
  rfl

theorem stalled_trace {σ : Type} (backend : Backend) (env : Env σ)
    (h : none ∈ driver_draws env) :
    (main backend env).trace =
      (pulled env).map (fun c => Event.next (some c)) ++ [Event.next none] := by
  rw [(main_stalled backend env h).2]

theorem stalled_outcome {σ : Type} (backend : Backend) (env : Env σ)
    (h : none ∈ driver_draws env) : (main backend env).outcome = Outcome.terminated := by
  rw [(main_stalled backend env h).2]

theorem filled_outcome {σ : Type} (backend : Backend) (env : Env σ)
    (h : none ∉ driver_draws env) : (main backend env).outcome = Outcome.returned 0 := by
  rw [(main_filled backend env h).2]

theorem stalled_nextResults {σ : Type} (backend : Backend) (env : Env σ)
    (h : none ∈ driver_draws env) :
    nextResults (main backend env).trace = (pulled env).map some ++ [none] := by
  rw [stalled_trace backend env h]
  have h1 := nextResults_pulls (pulled env)
  unfold nextResults at h1 ⊢
  rw [List.filterMap_append, h1]
  rfl

theorem stalled_stored {σ : Type} (backend : Backend) (env : Env σ)
    (h : none ∈ driver_draws env) : stored (main backend env).trace = [] := by
  rw [stalled_trace backend env h, stored_append, stored_pulls]
  rfl

theorem stalled_mineCalls {σ : Type} (backend : Backend) (env : Env σ)
    (h : none ∈ driver_draws env) : mineCalls (main backend env).trace = [] := by
  rw [stalled_trace backend env h]
  have h1 := mineCalls_pulls (pulled env)
  unfold mineCalls at h1 ⊢
  rw [List.filterMap_append, h1]
  rfl

theorem stalled_printed {σ : Type} (backend : Backend) (env : Env σ)
    (h : none ∈ driver_draws env) : printed (main backend env).trace = [] := by
  rw [stalled_trace backend env h]
  have h1 := printed_pulls (pulled env)
  unfold printed at h1 ⊢
  rw [List.filter_append, h1]
  rfl

theorem run_cursorSaves {σ : Type} (backend : Backend) (env : Env σ) :
    cursorSaves (main backend env).trace = [] := by
  by_cases h : none ∈ driver_draws env
  · rw [stalled_trace backend env h]
    have h1 := cursorSaves_pulls (pulled env)
    unfold cursorSaves at h1 ⊢
    rw [List.filterMap_append, h1]
    rfl
  · rw [(main_filled backend env h).2]
    show cursorSaves (_ ++ _ :: _) = _
    have h1 := cursorSaves_pulls (pulled env)
    have h2 := cursorSaves_after_mining env.duration
      (mine_batch backend env ((pulled env).map empty_item).toArray RARITY KEY)
    unfold cursorSaves at h1 h2 ⊢
    rw [List.filterMap_append, h1]
    simpa using h2

theorem mem_cursorSaves (tr : List Event) (c : ExplorerCursor) :
    Event.save_cursor c ∈ tr → c ∈ cursorSaves tr := by
  intro h
  unfold cursorSaves
  rw [List.mem_filterMap]
  exact ⟨Event.save_cursor c, h, rfl⟩

theorem lineEnv_stored_length :
    (stored (main Backend.cpu lineEnv).trace).length = batch_size := by
  rw [filled_stored Backend.cpu lineEnv lineEnv_filled, lineEnv_cpu, sample_length]
  simpa using (main_filled Backend.cpu lineEnv lineEnv_filled).1

theorem draws_invariant {σ : Type} (next : σ → Option Coordinate × σ) (inv : σ → Prop)
    (hstep : ∀ e, inv e → ∃ c e', next e = (some c, e') ∧ inv e') :
    ∀ (n : Nat) (e : σ), inv e → none ∉ draws next n e := by
  intro n
  induction n with
  | zero => intro e _; simp [draws]
  | succ n ih =>
    intro e he
    obtain ⟨c, e', hn, he'⟩ := hstep e he
    rw [draws_succ, hn]
    simpa using ih e' he'

theorem spiral_next_available (e : SpiralExplorer) (h : e.storage.available = true) :
    ∃ c e', SpiralExplorer.next e = (some c, e') ∧ e'.storage.available = true := by
  refine ⟨ring_cell e.cursor.origin e.cursor.ring_index e.cursor.step_index_within_ring,
    ⟨e.cursor.advance, { e.storage with cursor := some e.cursor.advance }⟩, ?_, h⟩
  simp [SpiralExplorer.next, FileStorage.save_cursor, h]

theorem spiralEnv_filled (cuda cpu : Array WorkItem → Nat → Nat → Array WorkItem)
    (duration : Int) : none ∉ driver_draws (spiralEnv fresh_storage cuda cpu duration) :=
  draws_invariant SpiralExplorer.next (fun e => e.storage.available = true)
    spiral_next_available batch_size (SpiralExplorer.create fresh_storage ⟨0, 0⟩) rfl

theorem spiral_next_step (storage : FileStorage) (origin : Coordinate) (k s : Nat)
    (h : storage.available = true) :
    SpiralExplorer.next ⟨⟨origin, k, s⟩, storage⟩ =
      (some (ring_cell origin k s),
        ⟨ExplorerCursor.advance ⟨origin, k, s⟩,
          ⟨some (ExplorerCursor.advance ⟨origin, k, s⟩), true⟩⟩) := by
  cases storage with
  | mk c a =>
    simp at h
    subst h
    rfl

theorem spiralEnv_draws (cuda cpu : Array WorkItem → Nat → Nat → Array WorkItem)
    (duration : Int) :
    driver_draws (spiralEnv fresh_storage cuda cpu duration) =
      some ⟨0, 0⟩ :: some ⟨1, 0⟩ :: some ⟨1, 1⟩ :: some ⟨0, 1⟩ ::
        draws SpiralExplorer.next 262140
          ⟨⟨⟨0, 0⟩, 1, 3⟩, ⟨some ⟨⟨0, 0⟩, 1, 3⟩, true⟩⟩ := by
  have hb : batch_size = 262140 + 1 + 1 + 1 + 1 := rfl
  have he : (spiralEnv fresh_storage cuda cpu duration).explorer ⟨0, 0⟩ =
      ⟨⟨⟨0, 0⟩, 0, 0⟩, ⟨none, true⟩⟩ := rfl
  have hn : (spiralEnv fresh_storage cuda cpu duration).next = SpiralExplorer.next := rfl
  have h1 : ExplorerCursor.advance ⟨⟨0, 0⟩, 0, 0⟩ = ⟨⟨0, 0⟩, 1, 0⟩ := by decide
  have h2 : ExplorerCursor.advance ⟨⟨0, 0⟩, 1, 0⟩ = ⟨⟨0, 0⟩, 1, 1⟩ := by decide
  have h3 : ExplorerCursor.advance ⟨⟨0, 0⟩, 1, 1⟩ = ⟨⟨0, 0⟩, 1, 2⟩ := by decide
  have h4 : ExplorerCursor.advance ⟨⟨0, 0⟩, 1, 2⟩ = ⟨⟨0, 0⟩, 1, 3⟩ := by decide
  have c1 : ring_cell ⟨0, 0⟩ 0 0 = ⟨0, 0⟩ := by decide
  have c2 : ring_cell ⟨0, 0⟩ 1 0 = ⟨1, 0⟩ := by decide
  have c3 : ring_cell ⟨0, 0⟩ 1 1 = ⟨1, 1⟩ := by decide
  have c4 : ring_cell ⟨0, 0⟩ 1 2 = ⟨0, 1⟩ := by decide
  unfold driver_draws
  rw [hb, he, hn]
  rw [draws_succ, spiral_next_step _ _ _ _ rfl]
  simp only [h1, c1]
  rw [draws_succ, spiral_next_step _ _ _ _ rfl]
  simp only [h2, c2]
  rw [draws_succ, spiral_next_step _ _ _ _ rfl]
  simp only [h3, c3]
  rw [draws_succ, spiral_next_step _ _ _ _ rfl]
  simp only [h4, c4]

theorem spiralEnv_pulled (cuda cpu : Array WorkItem → Nat → Nat → Array WorkItem)
    (duration : Int) :
    ∃ rest : List Coordinate,
      pulled (spiralEnv fresh_storage cuda cpu duration) =
        ⟨0, 0⟩ :: ⟨1, 0⟩ :: ⟨1, 1⟩ :: ⟨0, 1⟩ :: rest := by
  refine ⟨(draws SpiralExplorer.next 262140
    ⟨⟨⟨0, 0⟩, 1, 3⟩, ⟨some ⟨⟨0, 0⟩, 1, 3⟩, true⟩⟩).filterMap id, ?_⟩
  unfold pulled
  rw [spiralEnv_draws]
  simp only [List.filterMap_cons, id]

theorem driver_draws_miners {σ : Type} (env : Env σ)
    (cuda cpu : Array WorkItem → Nat → Nat → Array WorkItem) :
    driver_draws { env with cuda_mine_batch := cuda, cpu_mine_batch := cpu } =
      driver_draws env := rfl

theorem pulled_miners {σ : Type} (env : Env σ)
    (cuda cpu : Array WorkItem → Nat → Nat → Array WorkItem) :
    pulled { env with cuda_mine_batch := cuda, cpu_mine_batch := cpu } = pulled env := rfl

/-- Draws of the sample explorer of `lineEnv`: consecutive cells of the x axis. -/
theorem line_draws : ∀ (n e : Nat),
    draws lineEnv.next n e = (List.range' e n).map fun (i : Nat) => some (Coordinate.mk (i : Int) 0) := by
  intro n
  induction n with
  | zero => intro e; rfl
  | succ n ih =>
    intro e
    rw [draws_succ]
    have hn : lineEnv.next e = (some ⟨(e : Int), 0⟩, e + 1) := rfl
    rw [hn]
    simp only [ih (e + 1), List.range'_succ, List.map_cons]

theorem lineEnv_pulled :
    pulled lineEnv = (List.range' 0 batch_size).map fun (i : Nat) => Coordinate.mk (i : Int) 0 := by
  have hd : driver_draws lineEnv = draws lineEnv.next batch_size 0 := rfl
  unfold pulled
  rw [hd, line_draws]
  have h := filterMap_id_map_some ((List.range' 0 batch_size).map fun (i : Nat) => Coordinate.mk (i : Int) 0)
  rw [List.map_map] at h
  exact h

theorem lineEnv_pulled_nodup : (pulled lineEnv).Nodup := by
  rw [lineEnv_pulled]
  refine List.Nodup.map ?_ (List.nodup_range' 0 batch_size)
  intro a b hab
  have hx : (a : Int) = (b : Int) := congrArg Coordinate.x hab
  exact Int.ofNat.inj hx

theorem stallEnv_two_pulled : pulled (stallEnv 2) = [⟨0, 0⟩, ⟨1, 0⟩] := by
  unfold pulled
  rw [stallEnv_two_draws]
  rfl

theorem stallEnv_two_third_call (backend : Backend) :
    (nextResults (main backend (stallEnv 2)).trace)[2]? = some none := by
  have hs : none ∈ driver_draws (stallEnv 2) := by rw [stallEnv_two_draws]; simp
  rw [stalled_nextResults backend (stallEnv 2) hs, stallEnv_two_pulled]
  rfl

/-- Position of the empty result among the results of a stalled run. -/
theorem index_of_none (cs : List Coordinate) (k : Nat)
    (h : (cs.map some ++ [none])[k]? = some none) : k = cs.length := by
  rcases Nat.lt_trichotomy k cs.length with hlt | heq | hgt
  · have hlt2 : k < (cs.map some).length := by simpa using hlt
    rw [List.getElem?_append_left hlt2] at h
    simp [List.getElem?_map, List.getElem?_eq_getElem hlt] at h
  · exact heq
  · have hge : (cs.map some ++ [none]).length ≤ k := by simp; omega
    rw [List.getElem?_eq_none hge] at h
    exact Option.noConfusion h

/-! ## Claims -/

/-- C1: in every run of `main` in which all `explorer->next()` calls yield a value, after
`mine_batch` returns the driver calls `store` exactly once for each item of the mined batch,
in batch order, passing the item as `mine_batch` left it; and when `mine_batch` keeps the
sequence of coordinates, the coordinates stored are exactly the coordinates the explorer
emitted, in the same order. -/
theorem C1_store_each_mined_item {σ : Type} (backend : Backend) (env : Env σ)
    (hall : Event.next none ∉ (main backend env).trace) :
    ∃ (batch : Array WorkItem) (pre post : List Event),
      (main backend env).trace =
          pre ++ Event.mine_batch batch RARITY KEY ::
            ((mine_batch backend env batch RARITY KEY).toList.map Event.store ++ post) ∧
        stored pre = [] ∧ mineCalls pre = [] ∧ stored post = [] ∧ mineCalls post = [] ∧
        stored (main backend env).trace = (mine_batch backend env batch RARITY KEY).toList ∧
        ((mine_batch backend env batch RARITY KEY).toList.map WorkItem.coordinate =
            batch.toList.map WorkItem.coordinate →
          (stored (main backend env).trace).map WorkItem.coordinate =
            emitted (main backend env).trace) := by
  have hs : none ∉ driver_draws env := fun h => hall ((next_none_mem_trace backend env).2 h)
  refine ⟨((pulled env).map empty_item).toArray,
    (pulled env).map (fun c => Event.next (some c)),
    Event.cout_rate batch_size env.duration ::
      ((mine_batch backend env ((pulled env).map empty_item).toArray RARITY KEY).toList.filter
        fun p => p.is_planet).map (fun p => Event.cout_planet (planet_line p)),
    ?_, stored_pulls _, mineCalls_pulls _, ?_, ?_, filled_stored backend env hs, ?_⟩
  · rw [(main_filled backend env hs).2]; rfl
  · exact stored_planet_lines _
  · simp [mineCalls, List.filterMap_eq_nil_iff]
  · intro hkeep
    rw [filled_stored backend env hs, filled_emitted backend env hs, hkeep]
    simpa using empty_items_coordinates (pulled env)

/-- Witness of C1: the run of the CPU build on the sample explorer that never fails; the
sample miner keeps the coordinates, so the coordinates stored are those emitted. -/
theorem C1_store_each_mined_item_witness :
    Event.next none ∉ (main Backend.cpu lineEnv).trace ∧
      stored (main Backend.cpu lineEnv).trace ≠ [] ∧
      (stored (main Backend.cpu lineEnv).trace).map WorkItem.coordinate =
        emitted (main Backend.cpu lineEnv).trace := by
  have hall : Event.next none ∉ (main Backend.cpu lineEnv).trace :=
    fun h => lineEnv_filled ((next_none_mem_trace Backend.cpu lineEnv).1 h)
  obtain ⟨batch, pre, post, _, _, _, _, _, hst, hco⟩ :=
    C1_store_each_mined_item Backend.cpu lineEnv hall
  refine ⟨hall, ?_, hco (sample_keeps_coordinates batch RARITY KEY)⟩
  intro hnil
  have hlen := (main_filled Backend.cpu lineEnv lineEnv_filled).1
  rw [filled_stored Backend.cpu lineEnv lineEnv_filled] at hnil
  have h0 := congrArg List.length hnil
  rw [lineEnv_cpu, sample_length] at h0
  simp only [List.length_map, List.length_nil, hlen] at h0
  exact absurd h0 (by decide)

/-- C2: the batch handed to `mine_batch` is built by calling `explorer->next()` exactly
`batch_size = 256*256*4 = 262144` times: it has 262144 items and its `i`-th item carries the
`x` and `y` of the `i`-th coordinate returned by `next()`, with `is_planet = false` and
`hash = ""`. -/
theorem C2_batch_built_from_next {σ : Type} (backend : Backend) (env : Env σ)
    (batch : Array WorkItem) (r k : Nat)
    (h : Event.mine_batch batch r k ∈ (main backend env).trace) :
    batch_size = 262144 ∧ (nextResults (main backend env).trace).length = 262144 ∧
      batch.size = 262144 ∧
      ∀ i : Nat, i < 262144 → ∃ c : Coordinate,
        (nextResults (main backend env).trace)[i]? = some (some c) ∧
          batch[i]? = some (WorkItem.mk c.x c.y false "") := by
  obtain ⟨hs, hb, _, _⟩ := mine_event_mem backend env batch r k h
  have hlen : (pulled env).length = 262144 := (main_filled backend env hs).1
  rw [filled_nextResults backend env hs, hb]
  refine ⟨rfl, by simp [hlen], by simp [hlen], ?_⟩
  intro i hi
  have hi2 : i < (pulled env).length := by rw [hlen]; exact hi
  refine ⟨(pulled env)[i], ?_, ?_⟩
  · simp [List.getElem?_map, List.getElem?_eq_getElem hi2]
  · simp [Array.getElem?_eq_getElem?_toList, List.getElem?_map, List.getElem?_eq_getElem hi2,
      empty_item]

/-- Witness of C2: the batch the CPU build mines on the sample explorer that never fails. -/
theorem C2_batch_built_from_next_witness :
    Event.mine_batch ((pulled lineEnv).map empty_item).toArray RARITY KEY ∈
        (main Backend.cpu lineEnv).trace ∧
      batch_size = 262144 ∧ (nextResults (main Backend.cpu lineEnv).trace).length = 262144 ∧
      ((pulled lineEnv).map empty_item).toArray.size = 262144 ∧
      ∀ i : Nat, i < 262144 → ∃ c : Coordinate,
        (nextResults (main Backend.cpu lineEnv).trace)[i]? = some (some c) ∧
          ((pulled lineEnv).map empty_item).toArray[i]? = some (WorkItem.mk c.x c.y false "") :=
  ⟨filled_mine_event_mem Backend.cpu lineEnv lineEnv_filled,
    C2_batch_built_from_next Backend.cpu lineEnv _ RARITY KEY
      (filled_mine_event_mem Backend.cpu lineEnv lineEnv_filled)⟩

/-- C3: for every mined batch, the lines `H(x, y) = hash` printed by `main` are exactly
those of the items whose `is_planet` is true, one line per such item, in batch order, each
showing that item's `x`, `y` and `hash`; an item with `is_planet` false produces no line. -/
theorem C3_planet_lines {σ : Type} (backend : Backend) (env : Env σ)
    (batch : Array WorkItem) (r k : Nat)
    (h : Event.mine_batch batch r k ∈ (main backend env).trace) :
    planetLines (main backend env).trace =
      ((mine_batch backend env batch r k).toList.filter fun p => p.is_planet).map
        fun p => "H(" ++ toString p.x ++ ", " ++ toString p.y ++ ") = " ++ p.hash := by
  obtain ⟨hs, hb, hr, hk⟩ := mine_event_mem backend env batch r k h
  rw [filled_planetLines backend env hs, hb, hr, hk]
  rfl

/-- Witness of C3: the planet lines of the CPU build on the sample explorer and miner. -/
theorem C3_planet_lines_witness :
    Event.mine_batch ((pulled lineEnv).map empty_item).toArray RARITY KEY ∈
        (main Backend.cpu lineEnv).trace ∧
      planetLines (main Backend.cpu lineEnv).trace =
        ((mine_batch Backend.cpu lineEnv ((pulled lineEnv).map empty_item).toArray RARITY
          KEY).toList.filter fun p => p.is_planet).map
          fun p => "H(" ++ toString p.x ++ ", " ++ toString p.y ++ ") = " ++ p.hash :=
  ⟨filled_mine_event_mem Backend.cpu lineEnv lineEnv_filled,
    C3_planet_lines Backend.cpu lineEnv _ RARITY KEY
      (filled_mine_event_mem Backend.cpu lineEnv lineEnv_filled)⟩

/-- C4 as the spec states it fails on the code: at an explorer whose first `next()` yields
no value, the CPU build makes that one call and the process is terminated by the uncaught
`std::bad_optional_access`; `main` does not return an error status. -/
theorem C4_counterexample :
    (main Backend.cpu (stallEnv 0)).trace = [Event.next none] ∧
      (main Backend.cpu (stallEnv 0)).outcome = Outcome.terminated ∧
      ¬ ∃ status : Int, (main Backend.cpu (stallEnv 0)).outcome = Outcome.returned status := by
  have hs : none ∈ driver_draws (stallEnv 0) := by rw [stallEnv_zero_draws]; simp
  have ho := stalled_outcome Backend.cpu (stallEnv 0) hs
  refine ⟨?_, ho, ?_⟩
  · rw [stalled_trace Backend.cpu (stallEnv 0) hs]
    unfold pulled
    rw [stallEnv_zero_draws]
    rfl
  · rintro ⟨status, h⟩
    rw [ho] at h
    exact Outcome.noConfusion h

/-- C4 (amended): when a call of `explorer->next()` yields no value, the driver does not
handle it: the unchecked `.value()` throws, nothing catches it, and the process is
terminated at that call instead of returning from `main` with a status. -/
theorem C4_empty_next_terminates {σ : Type} (backend : Backend) (env : Env σ)
    (h : Event.next none ∈ (main backend env).trace) :
    (main backend env).outcome = Outcome.terminated ∧
      (∀ status : Int, (main backend env).outcome ≠ Outcome.returned status) ∧
      (main backend env).trace.getLast? = some (Event.next none) := by
  have hs : none ∈ driver_draws env := (next_none_mem_trace backend env).1 h
  have ho := stalled_outcome backend env hs
  refine ⟨ho, ?_, ?_⟩
  · intro status hr
    rw [ho] at hr
    exact Outcome.noConfusion hr
  · rw [stalled_trace backend env hs]
    simp

/-- Witness of C4 (amended): the sample explorer that yields two coordinates and then no
value. -/
theorem C4_empty_next_terminates_witness :
    Event.next none ∈ (main Backend.cuda (stallEnv 2)).trace ∧
      (main Backend.cuda (stallEnv 2)).outcome = Outcome.terminated ∧
      (∀ status : Int, (main Backend.cuda (stallEnv 2)).outcome ≠ Outcome.returned status) ∧
      (main Backend.cuda (stallEnv 2)).trace.getLast? = some (Event.next none) :=
  ⟨(next_none_mem_trace Backend.cuda (stallEnv 2)).2 (by rw [stallEnv_two_draws]; simp),
    C4_empty_next_terminates Backend.cuda (stallEnv 2)
      ((next_none_mem_trace Backend.cuda (stallEnv 2)).2 (by rw [stallEnv_two_draws]; simp))⟩

/-- C5 as the spec states it fails on the code: in the run of the CPU build on the sample
explorer that never fails, all 262144 items of the batch are stored and the driver makes no
`save_cursor` call. -/
theorem C5_counterexample :
    (stored (main Backend.cpu lineEnv).trace).length = 262144 ∧
      cursorSaves (main Backend.cpu lineEnv).trace = [] :=
  ⟨lineEnv_stored_length, run_cursorSaves Backend.cpu lineEnv⟩

/-- C5 (amended): in the driver's data flow, after `mine_batch` the driver stores each
WorkItem of the mined batch with `Storage.store` and makes no `Storage.save_cursor` call: in
every run, for either build configuration, the trace holds no `save_cursor` call. -/
theorem C5_driver_never_saves_cursor {σ : Type} (backend : Backend) (env : Env σ) :
    cursorSaves (main backend env).trace = [] ∧
      (∀ c : ExplorerCursor, Event.save_cursor c ∉ (main backend env).trace) ∧
      ∀ (batch : Array WorkItem) (r k : Nat),
        Event.mine_batch batch r k ∈ (main backend env).trace →
          stored (main backend env).trace = (mine_batch backend env batch r k).toList := by
  refine ⟨run_cursorSaves backend env, ?_, ?_⟩
  · intro c hc
    have h := mem_cursorSaves _ c hc
    rw [run_cursorSaves backend env] at h
    exact absurd h (List.not_mem_nil c)
  · intro batch r k hm
    obtain ⟨hs, hb, hr, hk⟩ := mine_event_mem backend env batch r k hm
    rw [filled_stored backend env hs, hb, hr, hk]

/-- C6: with the driver's configuration (origin (0,0), rarity 16384, key 420) and a fresh
spiral explorer, the first four calls of `next()` made by the driver yield (0,0), (1,0),
(1,1), (0,1) in that order, and these are the first four items of the batch handed to
`mine_batch`. -/
theorem C6_first_four_of_spiral (backend : Backend)
    (cuda cpu : Array WorkItem → Nat → Nat → Array WorkItem) (duration : Int) :
    (nextResults (main backend (spiralEnv fresh_storage cuda cpu duration)).trace).take 4 =
        [some ⟨0, 0⟩, some ⟨1, 0⟩, some ⟨1, 1⟩, some ⟨0, 1⟩] ∧
      ∃ batch : Array WorkItem,
        mineCalls (main backend (spiralEnv fresh_storage cuda cpu duration)).trace =
            [(batch, 16384, 420)] ∧
          batch.toList.take 4 =
            [⟨0, 0, false, ""⟩, ⟨1, 0, false, ""⟩, ⟨1, 1, false, ""⟩, ⟨0, 1, false, ""⟩] := by
  have hs := spiralEnv_filled cuda cpu duration
  obtain ⟨rest, hp⟩ := spiralEnv_pulled cuda cpu duration
  refine ⟨?_, ((pulled (spiralEnv fresh_storage cuda cpu duration)).map empty_item).toArray,
    filled_mineCalls backend _ hs, ?_⟩
  · rw [filled_nextResults backend _ hs, hp]
    rfl
  · rw [hp]
    rfl

/-- C7: backend selection is not baked into the driver's logic.  In a run whose batch is
filled, for either build configuration and whatever the two miners compute, the driver
makes exactly one `mine_batch` call, on the same whole 262144-item batch with rarity 16384
(non-zero) and key 420; the events before the call are the same for both backends and the
events after it are one and the same function of the batch the selected miner left. -/
theorem C7_backend_not_baked_in {σ : Type} (env : Env σ)
    (hall : Event.next none ∉ (main Backend.cpu env).trace) :
    RARITY = 16384 ∧ KEY = 420 ∧ RARITY ≠ 0 ∧
      ∃ (pre : List Event) (batch : Array WorkItem) (after : Array WorkItem → List Event),
        batch.size = 262144 ∧ mineCalls pre = [] ∧ (∀ m, mineCalls (after m) = []) ∧
          ∀ (cuda cpu : Array WorkItem → Nat → Nat → Array WorkItem) (backend : Backend),
            (main backend { env with cuda_mine_batch := cuda, cpu_mine_batch := cpu }).trace =
                pre ++ Event.mine_batch batch RARITY KEY ::
                  after (match backend with
                    | Backend.cuda => cuda batch RARITY KEY
                    | Backend.cpu => cpu batch RARITY KEY) ∧
              mineCalls
                  (main backend
                    { env with cuda_mine_batch := cuda, cpu_mine_batch := cpu }).trace =
                [(batch, 16384, 420)] ∧
              (main backend { env with cuda_mine_batch := cuda, cpu_mine_batch := cpu }).outcome =
                Outcome.returned 0 := by
  have hs : none ∉ driver_draws env :=
    fun h => hall ((next_none_mem_trace Backend.cpu env).2 h)
  refine ⟨rfl, rfl, by decide, (pulled env).map (fun c => Event.next (some c)),
    ((pulled env).map empty_item).toArray, after_mining env.duration, ?_,
    mineCalls_pulls _, mineCalls_after_mining _, ?_⟩
  · simpa using (main_filled Backend.cpu env hs).1
  · intro cuda cpu backend
    have hs2 : none ∉ driver_draws { env with cuda_mine_batch := cuda, cpu_mine_batch := cpu } := by
      rw [driver_draws_miners]; exact hs
    refine ⟨?_, ?_, filled_outcome backend _ hs2⟩
    · rw [(main_filled backend _ hs2).2, pulled_miners]
      cases backend <;> rfl
    · rw [filled_mineCalls backend _ hs2, pulled_miners]
      rfl

/-- Witness of C7: the sample explorer that never fails, with any two miners. -/
theorem C7_backend_not_baked_in_witness :
    Event.next none ∉ (main Backend.cpu lineEnv).trace ∧
      ∃ (pre : List Event) (batch : Array WorkItem) (after : Array WorkItem → List Event),
        batch.size = 262144 ∧ mineCalls pre = [] ∧ (∀ m, mineCalls (after m) = []) ∧
          ∀ (cuda cpu : Array WorkItem → Nat → Nat → Array WorkItem) (backend : Backend),
            (main backend
                  { lineEnv with cuda_mine_batch := cuda, cpu_mine_batch := cpu }).trace =
                pre ++ Event.mine_batch batch RARITY KEY ::
                  after (match backend with
                    | Backend.cuda => cuda batch RARITY KEY
                    | Backend.cpu => cpu batch RARITY KEY) ∧
              mineCalls
                  (main backend
                    { lineEnv with cuda_mine_batch := cuda, cpu_mine_batch := cpu }).trace =
                [(batch, 16384, 420)] ∧
              (main backend
                  { lineEnv with cuda_mine_batch := cuda, cpu_mine_batch := cpu }).outcome =
                Outcome.returned 0 :=
  ⟨fun h => lineEnv_filled ((next_none_mem_trace Backend.cpu lineEnv).1 h),
    (C7_backend_not_baked_in lineEnv
      (fun h => lineEnv_filled ((next_none_mem_trace Backend.cpu lineEnv).1 h))).2.2.2⟩

/-- C8: assuming the explorer emits pairwise distinct coordinates (I1) and `mine_batch` keeps
the sequence of coordinates of the items, the coordinates of the batch built by the driver
are pairwise distinct, and within one run `store` is called at most once per coordinate, and
exactly once for each coordinate of the batch. -/
theorem C8_store_once_per_coordinate {σ : Type} (backend : Backend) (env : Env σ)
    (hI1 : (emitted (main backend env).trace).Nodup)
    (hkeep : ∀ (b : Array WorkItem) (r k : Nat),
      (mine_batch backend env b r k).toList.map WorkItem.coordinate =
        b.toList.map WorkItem.coordinate) :
    (∀ c : Coordinate, ((stored (main backend env).trace).map WorkItem.coordinate).count c ≤ 1) ∧
      ∀ (batch : Array WorkItem) (r k : Nat),
        Event.mine_batch batch r k ∈ (main backend env).trace →
          (batch.toList.map WorkItem.coordinate).Nodup ∧
            batch.toList.map WorkItem.coordinate = emitted (main backend env).trace ∧
            ∀ c ∈ batch.toList.map WorkItem.coordinate,
              ((stored (main backend env).trace).map WorkItem.coordinate).count c = 1 := by
  by_cases hs : none ∈ driver_draws env
  · refine ⟨?_, ?_⟩
    · intro c
      rw [stalled_stored backend env hs]
      simp
    · intro batch r k hm
      exact absurd hs (mine_event_mem backend env batch r k hm).1
  · have hst : (stored (main backend env).trace).map WorkItem.coordinate = pulled env := by
      rw [filled_stored backend env hs, hkeep]
      simpa using empty_items_coordinates (pulled env)
    rw [filled_emitted backend env hs] at hI1 ⊢
    rw [hst]
    refine ⟨fun c => List.nodup_iff_count_le_one.1 hI1 c, ?_⟩
    intro batch r k hm
    obtain ⟨_, hb, _, _⟩ := mine_event_mem backend env batch r k hm
    have hbc : batch.toList.map WorkItem.coordinate = pulled env := by
      rw [hb]
      simpa using empty_items_coordinates (pulled env)
    rw [hbc]
    exact ⟨hI1, rfl, fun c hc => List.count_eq_one_of_mem hI1 hc⟩

/-- Witness of C8: the sample explorer walks along the x axis, so its coordinates are
pairwise distinct, and the sample miner keeps the coordinates. -/
theorem C8_store_once_per_coordinate_witness :
    (emitted (main Backend.cpu lineEnv).trace).Nodup ∧
      (∀ (b : Array WorkItem) (r k : Nat),
        (mine_batch Backend.cpu lineEnv b r k).toList.map WorkItem.coordinate =
          b.toList.map WorkItem.coordinate) ∧
      (∀ c : Coordinate,
        ((stored (main Backend.cpu lineEnv).trace).map WorkItem.coordinate).count c ≤ 1) ∧
      ∀ (batch : Array WorkItem) (r k : Nat),
        Event.mine_batch batch r k ∈ (main Backend.cpu lineEnv).trace →
          (batch.toList.map WorkItem.coordinate).Nodup ∧
            batch.toList.map WorkItem.coordinate = emitted (main Backend.cpu lineEnv).trace ∧
            ∀ c ∈ batch.toList.map WorkItem.coordinate,
              ((stored (main Backend.cpu lineEnv).trace).map WorkItem.coordinate).count c = 1 :=
  have h1 : (emitted (main Backend.cpu lineEnv).trace).Nodup := by
    rw [filled_emitted Backend.cpu lineEnv lineEnv_filled]; exact lineEnv_pulled_nodup
  have h2 : ∀ (b : Array WorkItem) (r k : Nat),
      (mine_batch Backend.cpu lineEnv b r k).toList.map WorkItem.coordinate =
        b.toList.map WorkItem.coordinate := by
    intro b r k; rw [lineEnv_cpu]; exact sample_keeps_coordinates b r k
  ⟨h1, h2, C8_store_once_per_coordinate Backend.cpu lineEnv h1 h2⟩

/-- C9: failure while filling the batch is atomic with respect to results.  If for some
`k < 262144` the `k`-th call of `explorer->next()` (counted from 0) yields no value, the run
ends at that call: exactly `k + 1` calls of `next()` were made, the first `k` of which
yielded a value, `mine_batch` and `store` were never called, nothing was printed, and the
trace holds nothing but those calls of `next()`. -/
theorem C9_stall_is_atomic {σ : Type} (backend : Backend) (env : Env σ) (k : Nat)
    (hk : k < 262144) (hfail : (nextResults (main backend env).trace)[k]? = some none) :
    k < batch_size ∧ (nextResults (main backend env).trace).length = k + 1 ∧
      (∀ i : Nat, i < k → ∃ c : Coordinate,
        (nextResults (main backend env).trace)[i]? = some (some c)) ∧
      mineCalls (main backend env).trace = [] ∧
      stored (main backend env).trace = [] ∧
      printed (main backend env).trace = [] ∧
      (main backend env).trace = (nextResults (main backend env).trace).map Event.next ∧
      (main backend env).outcome = Outcome.terminated := by
  by_cases hs : none ∈ driver_draws env
  · have hnr := stalled_nextResults backend env hs
    rw [hnr] at hfail
    have hkl : k = (pulled env).length := index_of_none (pulled env) k hfail
    refine ⟨hk, ?_, ?_, stalled_mineCalls backend env hs, stalled_stored backend env hs,
      stalled_printed backend env hs, ?_, stalled_outcome backend env hs⟩
    · rw [hnr, hkl]; simp
    · intro i hi
      have hi2 : i < (pulled env).length := by omega
      have hi3 : i < ((pulled env).map some).length := by simpa using hi2
      refine ⟨(pulled env)[i], ?_⟩
      rw [hnr, List.getElem?_append_left hi3]
      simp [List.getElem?_map, List.getElem?_eq_getElem hi2]
    · rw [hnr, stalled_trace backend env hs]
      simp [List.map_append, List.map_map, Function.comp_def]
  · have hnr := filled_nextResults backend env hs
    rw [hnr] at hfail
    simp [List.getElem?_map] at hfail

/-- Witness of C9: the sample explorer that yields two coordinates and then no value; the
call with index 2 fails. -/
theorem C9_stall_is_atomic_witness :
    (2 : Nat) < 262144 ∧
      (nextResults (main Backend.cpu (stallEnv 2)).trace)[2]? = some none ∧
      (nextResults (main Backend.cpu (stallEnv 2)).trace).length = 2 + 1 ∧
      mineCalls (main Backend.cpu (stallEnv 2)).trace = [] ∧
      stored (main Backend.cpu (stallEnv 2)).trace = [] ∧
      printed (main Backend.cpu (stallEnv 2)).trace = [] ∧
      (main Backend.cpu (stallEnv 2)).outcome = Outcome.terminated :=
  have h := C9_stall_is_atomic Backend.cpu (stallEnv 2) 2 (by decide)
    (stallEnv_two_third_call Backend.cpu)
  ⟨by decide, stallEnv_two_third_call Backend.cpu, h.2.1, h.2.2.2.1, h.2.2.2.2.1,
    h.2.2.2.2.2.1, h.2.2.2.2.2.2.2⟩

end BlueSpace
